import Mathlib

/-!
Verification of the tos-vm host-side runtime (program-runtime and syscalls
crates) against its natural-language specification.

The Rust sources are shallowly embedded: machine integers (`u64`, `usize`)
become `Nat` with explicit saturation at `2^64 - 1` where the source uses
saturating arithmetic; fallible Rust functions returning
`Result<T, Box<dyn Error>>` become `Except VmError T`; the interior-mutable
`InvokeContext` becomes explicit state passing.  Guest memory
(`MemoryMapping` from the external tbpf engine) is modelled as a list of
regions, each claiming a guest address range with a writable flag, exactly
the information the translator consults.  Each syscall handler additionally
records an event trace (charge / translate / port-call) so that the
spec's canonical processing order is a provable statement.
-/

/-- Largest value of a Rust `u64`. -/
def U64_MAX : Nat := 2 ^ 64 - 1

/-- Largest value of a Rust `isize` on a 64-bit host (`isize::MAX`). -/
def ISIZE_MAX : Nat := 2 ^ 63 - 1

/-- Rust `u64::saturating_add`. -/
def satAdd64 (a b : Nat) : Nat := min (a + b) U64_MAX

/-- Rust `u64::saturating_mul`. -/
def satMul64 (a b : Nat) : Nat := min (a * b) U64_MAX

/-- Errors surfaced by the runtime and the syscall handlers.  The source
spreads these over `EbpfError`, `MemoryTranslationError` and three
per-crate `SyscallError` enums; here they are collected in one type.
`ExceededMaxInstructions` is the error returned by
`InvokeContext::consume_checked` when the budget cannot pay. -/
inductive VmError where
  | ExceededMaxInstructions
  | UnalignedPointer
  | InvalidLength
  | MapFault
  | KeyTooLarge
  | ValueTooLarge
  | BufferTooSmall
  | MessageTooLong
  | InvalidAmount
  | InvalidString
  | ReturnDataTooLarge
  | PortFailure (code : Nat)
  deriving DecidableEq, Repr

/-- Embedding of `InvokeContext` (src/program-runtime/src/invoke_context.rs).
The `RefCell`s of the source are ordinary fields: the context is passed and
returned explicitly.  The 32-byte identifiers are byte lists (always of
length 32 in the source, where they are `[u8; 32]`). -/
structure InvokeContext where
  compute_budget : Nat
  compute_meter : Nat
  contract_hash : List Nat
  block_hash : List Nat
  block_height : Nat
  tx_hash : List Nat
  tx_sender : List Nat
  debug_mode : Bool
  return_data : Option (List Nat × List Nat)
  deriving DecidableEq, Repr

/-- Embedding of `InvokeContext::new`: the meter starts at the budget and
the remaining chain state is zeroed. -/
def InvokeContext.new (compute_budget : Nat) (contract_hash : List Nat) :
    InvokeContext :=
  { compute_budget := compute_budget
    compute_meter := compute_budget
    contract_hash := contract_hash
    block_hash := List.replicate 32 0
    block_height := 0
    tx_hash := List.replicate 32 0
    tx_sender := List.replicate 32 0
    debug_mode := false
    return_data := none }

/-- Embedding of `InvokeContext::consume_checked`: fails without touching
the meter when `amount` exceeds the remaining units, otherwise decrements
exactly.  The updated context is always returned alongside the result,
mirroring the fact that the Rust context persists across the call. -/
def InvokeContext.consume_checked (ctx : InvokeContext) (amount : Nat) :
    Except VmError Unit × InvokeContext :=
  if ctx.compute_meter < amount then
    (.error .ExceededMaxInstructions, ctx)
  else
    (.ok (), { ctx with compute_meter := ctx.compute_meter - amount })

/-- Embedding of `ContextObject::consume` for `InvokeContext`: the
unconditional, never-failing meter decrement used by the interpreter
(`saturating_sub`; `Nat` subtraction is already saturating). -/
def InvokeContext.consume (ctx : InvokeContext) (amount : Nat) :
    InvokeContext :=
  { ctx with compute_meter := ctx.compute_meter - amount }

/-- Embedding of `ContextObject::get_remaining` for `InvokeContext`. -/
def InvokeContext.get_remaining (ctx : InvokeContext) : Nat :=
  ctx.compute_meter

/-- Embedding of `InvokeContext::get_compute_units_consumed`
(`compute_budget.saturating_sub(remaining)`). -/
def InvokeContext.get_compute_units_consumed (ctx : InvokeContext) : Nat :=
  ctx.compute_budget - ctx.compute_meter

/-- Embedding of `InvokeContext::set_return_data`: data longer than 1024
bytes is rejected (the source wraps the message "Return data too large"
into an `EbpfError::SyscallError`; here the variant `ReturnDataTooLarge`)
and the slot is left untouched; otherwise the slot is replaced. -/
def InvokeContext.set_return_data (ctx : InvokeContext)
    (program_id : List Nat) (data : List Nat) :
    Except VmError Unit × InvokeContext :=
  if 1024 < data.length then
    (.error .ReturnDataTooLarge, ctx)
  else
    (.ok (), { ctx with return_data := some (program_id, data) })

/-- Embedding of `InvokeContext::get_return_data` (clones the slot). -/
def InvokeContext.get_return_data (ctx : InvokeContext) :
    Option (List Nat × List Nat) :=
  ctx.return_data

/-- Embedding of `InvokeContext::clear_return_data`. -/
def InvokeContext.clear_return_data (ctx : InvokeContext) : InvokeContext :=
  { ctx with return_data := none }

/-- Access type requested from the tbpf `MemoryMapping` (Load for reads,
Store for the mutable translation variants). -/
inductive AccessType where
  | load
  | store
  deriving DecidableEq, Repr

/-- One host buffer of the external engine mapping: it claims the guest
range `[vmAddr, vmAddr + bytes.length)`; `writable` grants Store access. -/
structure MemoryRegion where
  vmAddr : Nat
  bytes : List Nat
  writable : Bool
  deriving DecidableEq, Repr

/-- The external tbpf `MemoryMapping`, modelled by the data the translator
consults: the ordered list of regions. -/
abbrev MemoryMapping := List MemoryRegion

/-- Whether a region satisfies a mapping request: the requested guest range
must lie inside the region and Store access requires the writable flag. -/
def regionMatches (r : MemoryRegion) (acc : AccessType) (vmAddr len : Nat) :
    Bool :=
  decide (r.vmAddr ≤ vmAddr) &&
  decide (vmAddr + len ≤ r.vmAddr + r.bytes.length) &&
  (match acc with
   | .load => true
   | .store => r.writable)

/-- Resolution of `MemoryMapping::map(access, vm_addr, len)`: the first
region containing the requested range, returned together with its index in
the mapping and the offset of `vmAddr` inside it; `none` is the engine
fault propagated by `translate_inner!`. -/
def findRegion : MemoryMapping → AccessType → Nat → Nat →
    Option (Nat × Nat × MemoryRegion)
  | [], _, _, _ => none
  | r :: rs, acc, vmAddr, len =>
    if regionMatches r acc vmAddr len then
      some (0, vmAddr - r.vmAddr, r)
    else
      (findRegion rs acc vmAddr len).map (fun p => (p.1 + 1, p.2.1, p.2.2))

/-- Result of resolving a slice translation: `empty` is the short-circuit
for `len == 0` (the mapping is never consulted); `at_ idx off r` records
which region backs the slice and at which byte offset. -/
inductive SliceResolved where
  | empty
  | at_ (idx off : Nat) (r : MemoryRegion)
  deriving DecidableEq, Repr

/-- Embedding of the `translate_slice_inner!` macro
(src/program-runtime/src/memory.rs lines 64-81), parameterized by the
element size `size_of::<T>()`.  Order of checks as in the source:
`len == 0` returns an empty slice before anything else; then
`total = len.saturating_mul(size_of::<T>())` is rejected with
`InvalidLength` when it does not fit an `isize`; only then is the mapping
queried.  Every call site relevant to the claims instantiates `T = u8`
with `check_aligned = false` (and for `u8` the alignment check is vacuous,
`align_of::<u8>() = 1`), so the host-pointer alignment branch, which
follows the mapping query in the source, is not modelled. -/
def translate_slice_inner (m : MemoryMapping) (acc : AccessType)
    (vmAddr len elemSize : Nat) : Except VmError SliceResolved :=
  if len = 0 then .ok .empty
  else if ISIZE_MAX < satMul64 len elemSize then .error .InvalidLength
  else
    match findRegion m acc vmAddr (satMul64 len elemSize) with
    | none => .error .MapFault
    | some (idx, off, r) => .ok (.at_ idx off r)

/-- Embedding of `translate_slice::<u8>(mapping, addr, len, false)`: the
Load path for byte slices, returning the bytes the produced host slice
contains. -/
def translate_slice_u8 (m : MemoryMapping) (vmAddr len : Nat) :
    Except VmError (List Nat) :=
  match translate_slice_inner m .load vmAddr len 1 with
  | .error e => .error e
  | .ok .empty => .ok []
  | .ok (.at_ _ off r) => .ok ((r.bytes.drop off).take len)

/-- Overwrite `data` into `l` starting at offset `off` (the semantics of
`copy_from_slice` into a resolved mutable slice). -/
def listOverwrite (l : List Nat) (off : Nat) (data : List Nat) : List Nat :=
  l.take off ++ data ++ l.drop (off + data.length)

/-- Replace the bytes of region `idx` by overwriting `data` at `off`. -/
def updateRegion : MemoryMapping → Nat → Nat → List Nat → MemoryMapping
  | [], _, _, _ => []
  | r :: rs, 0, off, data =>
    { r with bytes := listOverwrite r.bytes off data } :: rs
  | r :: rs, idx + 1, off, data => r :: updateRegion rs idx off data

/-- Apply a write of `data` through a resolved mutable slice: the
`len == 0` resolution writes nothing. -/
def applyWrite (m : MemoryMapping) (res : SliceResolved) (data : List Nat) :
    MemoryMapping :=
  match res with
  | .empty => m
  | .at_ idx off _ => updateRegion m idx off data

/-- Embedding of `translate_slice_mut::<u8>(mapping, addr, data.len, false)`
followed by `copy_from_slice(data)`: the Store path used by every handler
that populates guest output memory. -/
def write_slice_u8 (m : MemoryMapping) (vmAddr : Nat) (data : List Nat) :
    Except VmError MemoryMapping :=
  match translate_slice_inner m .store vmAddr data.length 1 with
  | .error e => .error e
  | .ok res => .ok (applyWrite m res data)

/-- UTF-8 continuation byte (`0x80..=0xBF`). -/
def isCont (b : Nat) : Bool := 0x80 ≤ b && b ≤ 0xBF

/-- Validity of a byte list as UTF-8, the decision `std::str::from_utf8`
makes: the standard table of lead-byte ranges, rejecting overlong forms
(`0xC0`/`0xC1`, `0xE0 0x80..0x9F`, `0xF0 0x80..0x8F`), surrogates
(`0xED 0xA0..0xBF`) and code points above `U+10FFFF` (`0xF5..`). -/
def utf8Valid : List Nat → Bool
  | [] => true
  | b :: rest =>
    if b ≤ 0x7F then utf8Valid rest
    else if 0xC2 ≤ b && b ≤ 0xDF then
      match rest with
      | c1 :: r => isCont c1 && utf8Valid r
      | [] => false
    else if b = 0xE0 then
      match rest with
      | c1 :: c2 :: r => (0xA0 ≤ c1 && c1 ≤ 0xBF) && isCont c2 && utf8Valid r
      | _ => false
    else if (0xE1 ≤ b && b ≤ 0xEC) || b = 0xEE || b = 0xEF then
      match rest with
      | c1 :: c2 :: r => isCont c1 && isCont c2 && utf8Valid r
      | _ => false
    else if b = 0xED then
      match rest with
      | c1 :: c2 :: r => (0x80 ≤ c1 && c1 ≤ 0x9F) && isCont c2 && utf8Valid r
      | _ => false
    else if b = 0xF0 then
      match rest with
      | c1 :: c2 :: c3 :: r =>
        (0x90 ≤ c1 && c1 ≤ 0xBF) && isCont c2 && isCont c3 && utf8Valid r
      | _ => false
    else if 0xF1 ≤ b && b ≤ 0xF3 then
      match rest with
      | c1 :: c2 :: c3 :: r =>
        isCont c1 && isCont c2 && isCont c3 && utf8Valid r
      | _ => false
    else if b = 0xF4 then
      match rest with
      | c1 :: c2 :: c3 :: r =>
        (0x80 ≤ c1 && c1 ≤ 0x8F) && isCont c2 && isCont c3 && utf8Valid r
      | _ => false
    else false

/-- Embedding of `translate_string` (src/program-runtime/src/memory.rs
lines 214-222): delegates to `translate_slice::<u8>` with no alignment
requirement, then validates UTF-8; the UTF-8 failure is mapped by the
source to `MemoryTranslationError::InvalidLength`
(`.map_err(|_| MemoryTranslationError::InvalidLength.into())`), which is
reproduced faithfully here. -/
def translate_string (m : MemoryMapping) (vmAddr len : Nat) :
    Except VmError (List Nat) :=
  match translate_slice_u8 m vmAddr len with
  | .error e => .error e
  | .ok bytes =>
    if utf8Valid bytes then .ok bytes else .error .InvalidLength

/-- Embedding of the `StorageProvider` trait
(src/program-runtime/src/storage.rs): the host supplies the three
operations over its own state type `σ`; `get` takes `&self` (no state
change), `set` and `delete` take `&mut self` (return a new state). -/
structure StorageIface (σ : Type) where
  get : σ → List Nat → List Nat → Except VmError (Option (List Nat))
  set : σ → List Nat → List Nat → List Nat → Except VmError σ
  del : σ → List Nat → List Nat → Except VmError (Bool × σ)

/-- Embedding of the `AccountProvider` trait: `get_balance` takes `&self`,
`transfer(from, to, amount)` takes `&mut self`. -/
structure AccountIface (σ : Type) where
  get_balance : σ → List Nat → Except VmError Nat
  transfer : σ → List Nat → List Nat → Nat → Except VmError σ

/-- Embedding of `InvokeContext::get_storage`: thin pass-through to the
storage port, automatically scoped by `contract_hash`. -/
def ctx_get_storage {σ : Type} (sp : StorageIface σ) (s : σ)
    (ctx : InvokeContext) (key : List Nat) :
    Except VmError (Option (List Nat)) :=
  sp.get s ctx.contract_hash key

/-- Embedding of `InvokeContext::set_storage`, scoped by `contract_hash`. -/
def ctx_set_storage {σ : Type} (sp : StorageIface σ) (s : σ)
    (ctx : InvokeContext) (key value : List Nat) : Except VmError σ :=
  sp.set s ctx.contract_hash key value

/-- Embedding of `InvokeContext::delete_storage`, scoped by
`contract_hash`. -/
def ctx_delete_storage {σ : Type} (sp : StorageIface σ) (s : σ)
    (ctx : InvokeContext) (key : List Nat) : Except VmError (Bool × σ) :=
  sp.del s ctx.contract_hash key

/-- Embedding of `InvokeContext::transfer`: the source of the transfer is
always `contract_hash`. -/
def ctx_transfer {σ : Type} (ap : AccountIface σ) (s : σ)
    (ctx : InvokeContext) (recipient : List Nat) (amount : Nat) :
    Except VmError σ :=
  ap.transfer s ctx.contract_hash recipient amount

/-- Observable steps of a syscall handler, recorded in execution order:
`charge c` is a `consume_checked` call that succeeded, `chargeFail c` one
that failed; `translate` is a guest-memory translation that actually
queried the mapping (a `len = 0` translation emits nothing, matching C8);
`portCall` is a call into a Storage/Account port. -/
inductive Event where
  | charge (amount : Nat)
  | chargeFail (amount : Nat)
  | translate
  | portCall
  deriving DecidableEq, Repr

/-- Trace contribution of one slice translation: the mapping is queried
exactly when the length is nonzero. -/
def tev (len : Nat) : List Event := if len = 0 then [] else [.translate]

/-- Result of running one syscall handler: the `u64` result or error, the
updated context, guest memory, port states, and the event trace. -/
structure HandlerOut (σs σa : Type) where
  res : Except VmError Nat
  ctx : InvokeContext
  mem : MemoryMapping
  stor : σs
  acct : σa
  events : List Event

/-- Embedding of the `TosLog` handler (src/syscalls/src/logging.rs):
validate the length limit, charge `100 + len`, translate, validate UTF-8;
the `debug_mode` branch only emits host-side logging. -/
def tosLog (ctx : InvokeContext) (m : MemoryMapping)
    (msg_ptr msg_len : Nat) : HandlerOut Unit Unit :=
  if 10000 < msg_len then
    ⟨.error .MessageTooLong, ctx, m, (), (), []⟩
  else
    match ctx.consume_checked (satAdd64 100 (satMul64 msg_len 1)) with
    | (.error e, ctx1) =>
      ⟨.error e, ctx1, m, (), (),
        [.chargeFail (satAdd64 100 (satMul64 msg_len 1))]⟩
    | (.ok _, ctx1) =>
      match translate_slice_u8 m msg_ptr msg_len with
      | .error e =>
        ⟨.error e, ctx1, m, (), (),
          .charge (satAdd64 100 (satMul64 msg_len 1)) :: tev msg_len⟩
      | .ok bytes =>
        if utf8Valid bytes then
          ⟨.ok 0, ctx1, m, (), (),
            .charge (satAdd64 100 (satMul64 msg_len 1)) :: tev msg_len⟩
        else
          ⟨.error .InvalidString, ctx1, m, (), (),
            .charge (satAdd64 100 (satMul64 msg_len 1)) :: tev msg_len⟩

/-- Embedding common to the four 32-byte state-query handlers
(`TosGetBlockHash`, `TosGetTxHash`, `TosGetTxSender`,
`TosGetContractHash`, src/syscalls/src/blockchain.rs): charge 50, then
translate the 32-byte output buffer and copy the field into it. -/
def tosGetField (ctx : InvokeContext) (m : MemoryMapping)
    (field : List Nat) (output_ptr : Nat) : HandlerOut Unit Unit :=
  match ctx.consume_checked 50 with
  | (.error e, ctx1) => ⟨.error e, ctx1, m, (), (), [.chargeFail 50]⟩
  | (.ok _, ctx1) =>
    match write_slice_u8 m output_ptr field with
    | .error e => ⟨.error e, ctx1, m, (), (), [.charge 50, .translate]⟩
    | .ok m1 => ⟨.ok 0, ctx1, m1, (), (), [.charge 50, .translate]⟩

/-- Embedding of `TosGetBlockHash`. -/
def tosGetBlockHash (ctx : InvokeContext) (m : MemoryMapping)
    (output_ptr : Nat) : HandlerOut Unit Unit :=
  tosGetField ctx m ctx.block_hash output_ptr

/-- Embedding of `TosGetTxHash`. -/
def tosGetTxHash (ctx : InvokeContext) (m : MemoryMapping)
    (output_ptr : Nat) : HandlerOut Unit Unit :=
  tosGetField ctx m ctx.tx_hash output_ptr

/-- Embedding of `TosGetTxSender`. -/
def tosGetTxSender (ctx : InvokeContext) (m : MemoryMapping)
    (output_ptr : Nat) : HandlerOut Unit Unit :=
  tosGetField ctx m ctx.tx_sender output_ptr

/-- Embedding of `TosGetContractHash`. -/
def tosGetContractHash (ctx : InvokeContext) (m : MemoryMapping)
    (output_ptr : Nat) : HandlerOut Unit Unit :=
  tosGetField ctx m ctx.contract_hash output_ptr

/-- Embedding of `TosGetBlockHeight`: charge 50 and return the height
directly, with no memory access. -/
def tosGetBlockHeight (ctx : InvokeContext) (m : MemoryMapping) :
    HandlerOut Unit Unit :=
  match ctx.consume_checked 50 with
  | (.error e, ctx1) => ⟨.error e, ctx1, m, (), (), [.chargeFail 50]⟩
  | (.ok _, ctx1) => ⟨.ok ctx1.block_height, ctx1, m, (), (), [.charge 50]⟩

/-- Embedding of `TosGetBalance` (src/syscalls/src/balance.rs): charge
100, translate the 32-byte address, delegate to the account port. -/
def tosGetBalance {σa : Type} (ap : AccountIface σa) (acct : σa)
    (ctx : InvokeContext) (m : MemoryMapping) (address_ptr : Nat) :
    HandlerOut Unit σa :=
  match ctx.consume_checked 100 with
  | (.error e, ctx1) => ⟨.error e, ctx1, m, (), acct, [.chargeFail 100]⟩
  | (.ok _, ctx1) =>
    match translate_slice_u8 m address_ptr 32 with
    | .error e => ⟨.error e, ctx1, m, (), acct, [.charge 100, .translate]⟩
    | .ok address =>
      match ap.get_balance acct address with
      | .error e =>
        ⟨.error e, ctx1, m, (), acct, [.charge 100, .translate, .portCall]⟩
      | .ok balance =>
        ⟨.ok balance, ctx1, m, (), acct,
          [.charge 100, .translate, .portCall]⟩

/-- Embedding of `TosTransfer` (src/syscalls/src/balance.rs lines
104-141), in source order: charge 500 first, only then validate
`amount != 0`, then translate the 32-byte recipient and delegate to
`InvokeContext::transfer`, whose source account is `contract_hash`. -/
def tosTransfer {σa : Type} (ap : AccountIface σa) (acct : σa)
    (ctx : InvokeContext) (m : MemoryMapping)
    (recipient_ptr amount : Nat) : HandlerOut Unit σa :=
  match ctx.consume_checked 500 with
  | (.error e, ctx1) => ⟨.error e, ctx1, m, (), acct, [.chargeFail 500]⟩
  | (.ok _, ctx1) =>
    if amount = 0 then
      ⟨.error .InvalidAmount, ctx1, m, (), acct, [.charge 500]⟩
    else
      match translate_slice_u8 m recipient_ptr 32 with
      | .error e => ⟨.error e, ctx1, m, (), acct, [.charge 500, .translate]⟩
      | .ok recipient =>
        match ctx_transfer ap acct ctx1 recipient amount with
        | .error e =>
          ⟨.error e, ctx1, m, (), acct,
            [.charge 500, .translate, .portCall]⟩
        | .ok acct1 =>
          ⟨.ok 0, ctx1, m, (), acct1,
            [.charge 500, .translate, .portCall]⟩

/-- Embedding of `TosStorageRead` (src/syscalls/src/storage.rs lines
65-127), in source order: validate the key size, then translate the key,
then query the storage port, and only then charge compute
(`200 + value_len` if found, `200` if absent); on a found value, an output
buffer smaller than the value is rejected with `BufferTooSmall` before the
output translation and copy. -/
def tosStorageRead {σs : Type} (sp : StorageIface σs) (stor : σs)
    (ctx : InvokeContext) (m : MemoryMapping)
    (key_ptr key_len output_ptr output_len : Nat) : HandlerOut σs Unit :=
  if 256 < key_len then
    ⟨.error .KeyTooLarge, ctx, m, stor, (), []⟩
  else
    match translate_slice_u8 m key_ptr key_len with
    | .error e => ⟨.error e, ctx, m, stor, (), tev key_len⟩
    | .ok key =>
      match ctx_get_storage sp stor ctx key with
      | .error e => ⟨.error e, ctx, m, stor, (), tev key_len ++ [.portCall]⟩
      | .ok (some data) =>
        match ctx.consume_checked (satAdd64 200 (satMul64 data.length 1)) with
        | (.error e, ctx1) =>
          ⟨.error e, ctx1, m, stor, (),
            tev key_len ++
              [.portCall, .chargeFail (satAdd64 200 (satMul64 data.length 1))]⟩
        | (.ok _, ctx1) =>
          if output_len < data.length then
            ⟨.error .BufferTooSmall, ctx1, m, stor, (),
              tev key_len ++
                [.portCall, .charge (satAdd64 200 (satMul64 data.length 1))]⟩
          else
            match translate_slice_inner m .store output_ptr data.length 1 with
            | .error e =>
              ⟨.error e, ctx1, m, stor, (),
                tev key_len ++
                  [.portCall, .charge (satAdd64 200 (satMul64 data.length 1))]
                  ++ tev data.length⟩
            | .ok r =>
              ⟨.ok data.length, ctx1, applyWrite m r data, stor, (),
                tev key_len ++
                  [.portCall, .charge (satAdd64 200 (satMul64 data.length 1))]
                  ++ tev data.length⟩
      | .ok none =>
        match ctx.consume_checked 200 with
        | (.error e, ctx1) =>
          ⟨.error e, ctx1, m, stor, (),
            tev key_len ++ [.portCall, .chargeFail 200]⟩
        | (.ok _, ctx1) =>
          ⟨.ok 0, ctx1, m, stor, (),
            tev key_len ++ [.portCall, .charge 200]⟩

/-- Embedding of `TosStorageWrite` (src/syscalls/src/storage.rs lines
146-192): validate key and value sizes, charge `500 + 2·value_len`,
translate key and value, delegate `set` to the storage port. -/
def tosStorageWrite {σs : Type} (sp : StorageIface σs) (stor : σs)
    (ctx : InvokeContext) (m : MemoryMapping)
    (key_ptr key_len value_ptr value_len : Nat) : HandlerOut σs Unit :=
  if 256 < key_len then
    ⟨.error .KeyTooLarge, ctx, m, stor, (), []⟩
  else if 65536 < value_len then
    ⟨.error .ValueTooLarge, ctx, m, stor, (), []⟩
  else
    match ctx.consume_checked (satAdd64 500 (satMul64 value_len 2)) with
    | (.error e, ctx1) =>
      ⟨.error e, ctx1, m, stor, (),
        [.chargeFail (satAdd64 500 (satMul64 value_len 2))]⟩
    | (.ok _, ctx1) =>
      match translate_slice_u8 m key_ptr key_len with
      | .error e =>
        ⟨.error e, ctx1, m, stor, (),
          .charge (satAdd64 500 (satMul64 value_len 2)) :: tev key_len⟩
      | .ok key =>
        match translate_slice_u8 m value_ptr value_len with
        | .error e =>
          ⟨.error e, ctx1, m, stor, (),
            .charge (satAdd64 500 (satMul64 value_len 2)) ::
              (tev key_len ++ tev value_len)⟩
        | .ok value =>
          match ctx_set_storage sp stor ctx1 key value with
          | .error e =>
            ⟨.error e, ctx1, m, stor, (),
              .charge (satAdd64 500 (satMul64 value_len 2)) ::
                (tev key_len ++ tev value_len ++ [.portCall])⟩
          | .ok stor1 =>
            ⟨.ok 0, ctx1, m, stor1, (),
              .charge (satAdd64 500 (satMul64 value_len 2)) ::
                (tev key_len ++ tev value_len ++ [.portCall])⟩

/-- Embedding of `TosStorageDelete`: validate key size, charge 300,
translate the key, delegate `delete`; returns 1 if the key existed. -/
def tosStorageDelete {σs : Type} (sp : StorageIface σs) (stor : σs)
    (ctx : InvokeContext) (m : MemoryMapping) (key_ptr key_len : Nat) :
    HandlerOut σs Unit :=
  if 256 < key_len then
    ⟨.error .KeyTooLarge, ctx, m, stor, (), []⟩
  else
    match ctx.consume_checked 300 with
    | (.error e, ctx1) => ⟨.error e, ctx1, m, stor, (), [.chargeFail 300]⟩
    | (.ok _, ctx1) =>
      match translate_slice_u8 m key_ptr key_len with
      | .error e => ⟨.error e, ctx1, m, stor, (), .charge 300 :: tev key_len⟩
      | .ok key =>
        match ctx_delete_storage sp stor ctx1 key with
        | .error e =>
          ⟨.error e, ctx1, m, stor, (),
            .charge 300 :: (tev key_len ++ [.portCall])⟩
        | .ok (existed, stor1) =>
          ⟨.ok (if existed then 1 else 0), ctx1, m, stor1, (),
            .charge 300 :: (tev key_len ++ [.portCall])⟩

/-- Embedding of `TosSetReturnData` (src/syscalls/src/return_data.rs lines
56-91): validate the 1024-byte limit, charge `100 + len`, translate the
data, store `(contract_hash, data)` through
`InvokeContext::set_return_data`. -/
def tosSetReturnData (ctx : InvokeContext) (m : MemoryMapping)
    (data_ptr data_len : Nat) : HandlerOut Unit Unit :=
  if 1024 < data_len then
    ⟨.error .ReturnDataTooLarge, ctx, m, (), (), []⟩
  else
    match ctx.consume_checked (satAdd64 100 (satMul64 data_len 1)) with
    | (.error e, ctx1) =>
      ⟨.error e, ctx1, m, (), (),
        [.chargeFail (satAdd64 100 (satMul64 data_len 1))]⟩
    | (.ok _, ctx1) =>
      match translate_slice_u8 m data_ptr data_len with
      | .error e =>
        ⟨.error e, ctx1, m, (), (),
          .charge (satAdd64 100 (satMul64 data_len 1)) :: tev data_len⟩
      | .ok data =>
        match ctx1.set_return_data ctx1.contract_hash data with
        | (.error e, ctx2) =>
          ⟨.error e, ctx2, m, (), (),
            .charge (satAdd64 100 (satMul64 data_len 1)) :: tev data_len⟩
        | (.ok _, ctx2) =>
          ⟨.ok 0, ctx2, m, (), (),
            .charge (satAdd64 100 (satMul64 data_len 1)) :: tev data_len⟩

/-- Embedding of `TosGetReturnData` (src/syscalls/src/return_data.rs lines
111-162): charge 50; with no stored data return 0; otherwise compute
`length_to_copy = min(output_len, actual_len)` and, only when it is
nonzero, translate the output and program-id buffers and copy the
truncated payload and the 32-byte program id; the returned value is the
actual stored length in every successful case. -/
def tosGetReturnData (ctx : InvokeContext) (m : MemoryMapping)
    (data_ptr data_len program_id_ptr : Nat) : HandlerOut Unit Unit :=
  match ctx.consume_checked 50 with
  | (.error e, ctx1) => ⟨.error e, ctx1, m, (), (), [.chargeFail 50]⟩
  | (.ok _, ctx1) =>
    match ctx1.get_return_data with
    | some (program_id, data) =>
      if min data_len data.length ≠ 0 then
        match
          translate_slice_inner m .store data_ptr (min data_len data.length) 1
        with
        | .error e =>
          ⟨.error e, ctx1, m, (), (), [.charge 50, .translate]⟩
        | .ok r1 =>
          match translate_slice_inner m .store program_id_ptr 32 1 with
          | .error e =>
            ⟨.error e, ctx1, m, (), (),
              [.charge 50, .translate, .translate]⟩
          | .ok r2 =>
            ⟨.ok data.length, ctx1,
              applyWrite
                (applyWrite m r1 (data.take (min data_len data.length)))
                r2 program_id,
              (), (), [.charge 50, .translate, .translate]⟩
      else
        ⟨.ok data.length, ctx1, m, (), (), [.charge 50]⟩
    | none => ⟨.ok 0, ctx1, m, (), (), [.charge 50]⟩

/-- Embedding of `NoOpStorage` (src/program-runtime/src/storage.rs): `get`
finds nothing, `set` succeeds, `delete` reports the key absent. -/
def noOpStorage : StorageIface Unit :=
  ⟨fun _ _ _ => .ok none, fun s _ _ _ => .ok s, fun s _ _ => .ok (false, s)⟩

/-- Embedding of `NoOpAccounts`: balance 0, transfers always succeed. -/
def noOpAccounts : AccountIface Unit :=
  ⟨fun _ _ => .ok 0, fun s _ _ _ => .ok s⟩

/-- Trace discipline of the canonical processing order: scanning the
events in execution order, no guest-memory translation and no port call
may appear before a successful compute charge. -/
def noWorkBeforeCharge : List Event → Bool
  | [] => true
  | .charge _ :: _ => true
  | .translate :: _ => false
  | .portCall :: _ => false
  | .chargeFail _ :: rest => noWorkBeforeCharge rest

/-- Association-list state for the in-memory reference `StorageProvider`
keyed by `(contract_hash, key)`, over which claim C5 is stated (the source
defines only the trait; the spec mandates map-backed reference
implementations for reasoning about it). -/
abbrev MapStore := List ((List Nat × List Nat) × List Nat)

/-- Lookup in the association list (first binding wins). -/
def storeLookup : MapStore → List Nat × List Nat → Option (List Nat)
  | [], _ => none
  | (k, v) :: rest, q => if k = q then some v else storeLookup rest q

/-- The map-backed storage port: `get` is lookup, `set` prepends the new
binding (shadowing any older one), `delete` reports and removes. -/
def mapStorage : StorageIface MapStore :=
  ⟨fun s h k => .ok (storeLookup s (h, k)),
   fun s h k v => .ok (((h, k), v) :: s),
   fun s h k =>
     .ok ((storeLookup s (h, k)).isSome,
       s.filter (fun kv => decide (kv.1 ≠ (h, k))))⟩

/-- The C5 scenario: `tos_storage_write(k, v)` immediately followed by
`tos_storage_read(k)` through the map-backed port, threading the storage
state, context and guest memory from the write into the read. -/
def storageWriteThenRead (stor : MapStore) (ctx : InvokeContext)
    (m : MemoryMapping) (kp kl vp vl op ol : Nat) :
    HandlerOut MapStore Unit :=
  tosStorageRead mapStorage
    (tosStorageWrite mapStorage stor ctx m kp kl vp vl).stor
    (tosStorageWrite mapStorage stor ctx m kp kl vp vl).ctx
    (tosStorageWrite mapStorage stor ctx m kp kl vp vl).mem
    kp kl op ol

/-- Concrete 32-byte region content for the C5 witness: key byte 107 at
offset 0, value `[1,2,3]` at offset 8, output buffer at offset 16. -/
def c5Bytes : List Nat :=
  [107, 0, 0, 0, 0, 0, 0, 0, 1, 2, 3, 0, 0, 0, 0, 0] ++ List.replicate 16 0

/-- Concrete one-region writable mapping for the C5 witness. -/
def c5Mem : MemoryMapping := [⟨0, c5Bytes, true⟩]

/-- Concrete context for the C5 witness: budget 10000. -/
def c5Ctx : InvokeContext := InvokeContext.new 10000 (List.replicate 32 1)

/-- CLAIM C1.  For every context state and amount `a`: if `a ≤ remaining`
then `consume_checked a` returns `Ok` and the remaining units decrease by
exactly `a`; if `a > remaining` it returns an error and the meter (indeed
the whole context) is unchanged. -/
theorem consume_checked_spec (ctx : InvokeContext) (a : Nat) :
    (a ≤ ctx.compute_meter →
      ctx.consume_checked a =
        (.ok (), { ctx with compute_meter := ctx.compute_meter - a }) ∧
      (ctx.consume_checked a).2.compute_meter + a = ctx.compute_meter) ∧
    (ctx.compute_meter < a →
      ctx.consume_checked a = (.error .ExceededMaxInstructions, ctx)) := by
  constructor
  · intro h
    have hlt : ¬ ctx.compute_meter < a := not_lt.mpr h
    constructor
    · simp [InvokeContext.consume_checked, hlt]
    · simp [InvokeContext.consume_checked, hlt]
      omega
  · intro h
    simp [InvokeContext.consume_checked, h]

/-- Witness for C1 at a concrete context: budget 100, consume 30. -/
theorem consume_checked_spec_witness :
    (InvokeContext.new 100 (List.replicate 32 1)).consume_checked 30 =
      (.ok (), { InvokeContext.new 100 (List.replicate 32 1) with
                  compute_meter := 70 }) :=
  ((consume_checked_spec (InvokeContext.new 100 (List.replicate 32 1)) 30).1
    (by decide)).1

/-- CLAIM C9.  `consume a` never fails (it is a total function on the
context) and the new remaining value is `max 0 (remaining - a)` computed
in the integers: consuming past the budget saturates at zero. -/
theorem consume_spec (ctx : InvokeContext) (a : Nat) :
    ctx.consume a = { ctx with compute_meter := ctx.compute_meter - a } ∧
    ((ctx.consume a).compute_meter : Int) =
      max 0 ((ctx.compute_meter : Int) - (a : Int)) := by
  refine ⟨rfl, ?_⟩
  simp only [InvokeContext.consume]
  omega

/-- CLAIM C7.  `set_return_data` with exactly 1024 bytes succeeds and
replaces the slot, while 1025 bytes fail with `ReturnDataTooLarge` and
leave the previously stored return data (the whole context) unchanged —
both at the context level and at the `tos_set_return_data` syscall level,
where the 1025-byte rejection happens at validation and touches nothing
at all (context, memory and meter are unchanged). -/
theorem set_return_data_boundary (ctx : InvokeContext)
    (pid data : List Nat) :
    (data.length = 1024 →
      ctx.set_return_data pid data =
        (.ok (), { ctx with return_data := some (pid, data) })) ∧
    (data.length = 1025 →
      ctx.set_return_data pid data = (.error .ReturnDataTooLarge, ctx)) ∧
    (∀ m dp,
      (tosSetReturnData ctx m dp 1025).res = .error .ReturnDataTooLarge ∧
      (tosSetReturnData ctx m dp 1025).ctx = ctx ∧
      (tosSetReturnData ctx m dp 1025).mem = m) := by
  refine ⟨?_, ?_, ?_⟩
  · intro h
    simp [InvokeContext.set_return_data, h]
  · intro h
    simp [InvokeContext.set_return_data, h]
  · intro m dp
    unfold tosSetReturnData
    rw [if_pos (by omega : (1024 : Nat) < 1025)]
    exact ⟨rfl, rfl, rfl⟩

/-- CLAIM C8.  For every mapping (including one with no or overlapping or
read-only regions), every access type (covering `translate_slice` and
`translate_slice_mut`), every guest address — mapped or not — and every
element size, a slice translation with `len = 0` succeeds with an empty
slice.  The statement quantifies over arbitrary mappings, which is exactly
the observable content of "the mapping is never queried, no bounds check
is performed": the short-circuit returns before `findRegion` is reached. -/
theorem translate_slice_len_zero (m : MemoryMapping) (acc : AccessType)
    (vmAddr elemSize : Nat) :
    translate_slice_inner m acc vmAddr 0 elemSize = .ok .empty ∧
    translate_slice_u8 m vmAddr 0 = .ok [] ∧
    write_slice_u8 m vmAddr [] = .ok m := by
  refine ⟨rfl, rfl, rfl⟩

/-- CLAIM C10.  For every element size and every `len > 0` (both fitting a
`u64`, as in the source where they have type `u64`), the slice translation
fails with `InvalidLength` exactly when the exact product
`len * size_of::<T>()` exceeds `isize::MAX`; the `u64`-saturating product
of the source cannot mask an overflow because the saturation point
`u64::MAX` itself exceeds `isize::MAX`.  The quantification over arbitrary
mappings shows the rejection happens before the mapping is queried. -/
theorem translate_slice_isize_guard (m : MemoryMapping) (acc : AccessType)
    (vmAddr len elemSize : Nat) (hpos : 0 < len) :
    translate_slice_inner m acc vmAddr len elemSize =
        .error .InvalidLength ↔
      ISIZE_MAX < len * elemSize := by
  have hiff : (ISIZE_MAX < satMul64 len elemSize) ↔
      (ISIZE_MAX < len * elemSize) := by
    unfold satMul64
    generalize len * elemSize = p
    unfold U64_MAX ISIZE_MAX
    omega
  have hne : ¬ len = 0 := by omega
  by_cases hbig : ISIZE_MAX < len * elemSize
  · simp only [translate_slice_inner, if_neg hne, if_pos (hiff.mpr hbig)]
    simpa using hbig
  · have hsmall : ¬ ISIZE_MAX < satMul64 len elemSize :=
      fun h => hbig (hiff.mp h)
    simp only [translate_slice_inner, if_neg hne, if_neg hsmall]
    constructor
    · intro h
      rcases hFind : findRegion m acc vmAddr (satMul64 len elemSize) with
        _ | ⟨idx, off, r⟩
      · rw [hFind] at h
        exact absurd h (by simp)
      · rw [hFind] at h
        exact absurd h (by simp)
    · intro h
      exact absurd h hbig

/-- Witness for C10: length 2 with element size `2^62` (total `2^63`
bytes, one past `isize::MAX`) is rejected as `InvalidLength` even on the
empty mapping. -/
theorem translate_slice_isize_guard_witness :
    translate_slice_inner [] AccessType.load 0 2 (2 ^ 62) =
      .error .InvalidLength :=
  (translate_slice_isize_guard [] .load 0 2 (2 ^ 62) (by decide)).mpr
    (by decide)

/-- COUNTEREXAMPLE to C4.  On the one-byte region `[0xFF]` the byte
translates successfully and is not UTF-8, and `translate_string` fails —
but with `MemoryTranslationError::InvalidLength`, the very same variant
produced by the length/overflow guard (shown here on the same mapping with
a huge length), not a distinct `InvalidString`/encoding error.  The source
line is `std::str::from_utf8(bytes).map_err(|_| InvalidLength.into())`. -/
theorem translate_string_error_not_distinct :
    translate_slice_u8 [⟨0, [255], true⟩] 0 1 = .ok [255] ∧
    utf8Valid [255] = false ∧
    translate_string [⟨0, [255], true⟩] 0 1 = .error .InvalidLength ∧
    translate_slice_u8 [⟨0, [255], true⟩] 0 (2 ^ 63) =
      .error .InvalidLength := by
  refine ⟨rfl, rfl, rfl, ?_⟩
  show translate_slice_u8 _ 0 (2 ^ 63) = _
  unfold translate_slice_u8 translate_slice_inner
  norm_num [satMul64, ISIZE_MAX, U64_MAX]

/-- CLAIM C4 as amended.  For every mapping, address and length whose
bytes translate successfully but are not valid UTF-8, `translate_string`
fails — with `MemoryTranslationError::InvalidLength`, the same variant as
the length/overflow error rather than a distinct encoding error — and it
never silently repairs or truncates the bytes into a string (no `Ok` is
ever produced from invalid UTF-8). -/
theorem translate_string_invalid_utf8 (m : MemoryMapping) (vmAddr len : Nat)
    (bytes : List Nat) (hok : translate_slice_u8 m vmAddr len = .ok bytes)
    (hbad : utf8Valid bytes = false) :
    translate_string m vmAddr len = .error .InvalidLength := by
  unfold translate_string
  rw [hok]
  simp [hbad]

/-- Witness for the amended C4 at the concrete one-byte region `[0xFF]`. -/
theorem translate_string_invalid_utf8_witness :
    translate_string [⟨0, [255], true⟩] 0 1 = .error .InvalidLength :=
  translate_string_invalid_utf8 [⟨0, [255], true⟩] 0 1 [255] rfl rfl

/-- Helper: a trace opening with a successful charge satisfies the
discipline outright. -/
theorem nwbc_charge_head (c : Nat) (l : List Event) :
    noWorkBeforeCharge (.charge c :: l) = true := rfl

/-- Helper: a failed charge alone satisfies the discipline. -/
theorem nwbc_chargeFail_only (c : Nat) :
    noWorkBeforeCharge [.chargeFail c] = true := rfl

/-- Helper: the trace discipline for the shared 32-byte field getter. -/
theorem tosGetField_trace (ctx : InvokeContext) (m : MemoryMapping)
    (field : List Nat) (p : Nat) :
    noWorkBeforeCharge (tosGetField ctx m field p).events = true := by
  unfold tosGetField
  split
  · rfl
  · split <;> rfl

/-- COUNTEREXAMPLE to C2.  `tos_storage_read` violates the canonical
order: on a context with zero budget it still translates the key and
queries the storage port before the (failing) compute charge — the trace
is translate, port call, failed charge.  Run on the no-op storage port
with a one-byte key mapped at guest address 0. -/
theorem syscall_charge_order_cx :
    (tosStorageRead noOpStorage () (InvokeContext.new 0 (List.replicate 32 1))
        [⟨0, [107], true⟩] 0 1 0 0).events =
      [.translate, .portCall, .chargeFail 200] ∧
    noWorkBeforeCharge
      (tosStorageRead noOpStorage () (InvokeContext.new 0 (List.replicate 32 1))
        [⟨0, [107], true⟩] 0 1 0 0).events = false := by
  constructor <;> rfl

/-- CLAIM C2 as amended.  Every syscall handler except `tos_storage_read`
performs no guest-memory translation and no port call before its compute
charge succeeds (`tos_storage_read` instead translates the key and queries
the storage port first, because its charge depends on the found value's
length — see the counterexample).  Stated as: the event trace of each of
the twelve other handlers satisfies the `noWorkBeforeCharge` discipline
for every context, mapping, port implementation and argument values. -/
theorem syscall_charge_order_amended :
    (∀ ctx m p l, noWorkBeforeCharge (tosLog ctx m p l).events = true) ∧
    (∀ ctx m p,
      noWorkBeforeCharge (tosGetBlockHash ctx m p).events = true) ∧
    (∀ ctx m p, noWorkBeforeCharge (tosGetTxHash ctx m p).events = true) ∧
    (∀ ctx m p, noWorkBeforeCharge (tosGetTxSender ctx m p).events = true) ∧
    (∀ ctx m p,
      noWorkBeforeCharge (tosGetContractHash ctx m p).events = true) ∧
    (∀ ctx m, noWorkBeforeCharge (tosGetBlockHeight ctx m).events = true) ∧
    (∀ (σa : Type) (ap : AccountIface σa) acct ctx m p,
      noWorkBeforeCharge (tosGetBalance ap acct ctx m p).events = true) ∧
    (∀ (σa : Type) (ap : AccountIface σa) acct ctx m p a,
      noWorkBeforeCharge (tosTransfer ap acct ctx m p a).events = true) ∧
    (∀ (σs : Type) (sp : StorageIface σs) stor ctx m kp kl vp vl,
      noWorkBeforeCharge
        (tosStorageWrite sp stor ctx m kp kl vp vl).events = true) ∧
    (∀ (σs : Type) (sp : StorageIface σs) stor ctx m kp kl,
      noWorkBeforeCharge
        (tosStorageDelete sp stor ctx m kp kl).events = true) ∧
    (∀ ctx m dp dl,
      noWorkBeforeCharge (tosSetReturnData ctx m dp dl).events = true) ∧
    (∀ ctx m dp dl pp,
      noWorkBeforeCharge (tosGetReturnData ctx m dp dl pp).events = true) := by
  refine ⟨?_, ?_, ?_, ?_, ?_, ?_, ?_, ?_, ?_, ?_, ?_, ?_⟩
  · intro ctx m p l
    unfold tosLog
    split
    · rfl
    · split
      · rfl
      · split
        · rfl
        · split <;> rfl
  · intro ctx m p
    exact tosGetField_trace ctx m ctx.block_hash p
  · intro ctx m p
    exact tosGetField_trace ctx m ctx.tx_hash p
  · intro ctx m p
    exact tosGetField_trace ctx m ctx.tx_sender p
  · intro ctx m p
    exact tosGetField_trace ctx m ctx.contract_hash p
  · intro ctx m
    unfold tosGetBlockHeight
    split <;> rfl
  · intro σa ap acct ctx m p
    unfold tosGetBalance
    split
    · rfl
    · split
      · rfl
      · split <;> rfl
  · intro σa ap acct ctx m p a
    unfold tosTransfer
    split
    · rfl
    · split
      · rfl
      · split
        · rfl
        · split <;> rfl
  · intro σs sp stor ctx m kp kl vp vl
    unfold tosStorageWrite
    split
    · rfl
    · split
      · rfl
      · split
        · rfl
        · split
          · rfl
          · split
            · rfl
            · split <;> rfl
  · intro σs sp stor ctx m kp kl
    unfold tosStorageDelete
    split
    · rfl
    · split
      · rfl
      · split
        · rfl
        · split <;> rfl
  · intro ctx m dp dl
    unfold tosSetReturnData
    split
    · rfl
    · split
      · rfl
      · split
        · rfl
        · split <;> rfl
  · intro ctx m dp dl pp
    unfold tosGetReturnData
    split
    · rfl
    · split
      · split
        · split
          · rfl
          · split <;> rfl
        · rfl
      · rfl

/-- COUNTEREXAMPLE to C3.  `tos_transfer` with `amount = 0` on a fresh
context with budget 10000 does fail with `InvalidAmount` and performs no
account-port call — but only after charging the full 500-unit transfer
cost: the remaining budget drops to 9500, refuting "remaining is
unchanged" / "before any compute is charged beyond validation". -/
theorem tosTransfer_zero_amount_cx :
    (tosTransfer noOpAccounts () (InvokeContext.new 10000 (List.replicate 32 1))
        [] 0 0).res = .error .InvalidAmount ∧
    (tosTransfer noOpAccounts () (InvokeContext.new 10000 (List.replicate 32 1))
        [] 0 0).events = [.charge 500] ∧
    (tosTransfer noOpAccounts () (InvokeContext.new 10000 (List.replicate 32 1))
        [] 0 0).ctx.compute_meter = 9500 ∧
    (InvokeContext.new 10000 (List.replicate 32 1)).compute_meter = 10000 := by
  refine ⟨rfl, rfl, rfl, rfl⟩

/-- CLAIM C3 as amended.  `tos_transfer` charges the 500-unit cost first;
with `amount = 0` it then fails with `InvalidAmount`, performing no
account-port call and no guest-memory translation, with the remaining
budget decreased by exactly 500 (when the budget cannot pay the 500, the
call instead fails with the out-of-compute error and the meter is
unchanged).  For `amount > 0` it translates the 32-byte recipient and
delegates the transfer to the account port with the source fixed to
`contract_hash`. -/
theorem tosTransfer_spec (σa : Type) (ap : AccountIface σa) (acct : σa)
    (ctx : InvokeContext) (m : MemoryMapping) (rptr amount : Nat) :
    (amount = 0 → 500 ≤ ctx.compute_meter →
      (tosTransfer ap acct ctx m rptr amount).res = .error .InvalidAmount ∧
      (tosTransfer ap acct ctx m rptr amount).ctx.compute_meter + 500 =
        ctx.compute_meter ∧
      (tosTransfer ap acct ctx m rptr amount).events = [.charge 500] ∧
      (tosTransfer ap acct ctx m rptr amount).acct = acct ∧
      (tosTransfer ap acct ctx m rptr amount).mem = m) ∧
    (amount = 0 → ctx.compute_meter < 500 →
      (tosTransfer ap acct ctx m rptr amount).res =
        .error .ExceededMaxInstructions ∧
      (tosTransfer ap acct ctx m rptr amount).ctx = ctx ∧
      (tosTransfer ap acct ctx m rptr amount).acct = acct) ∧
    (∀ rb acct1, 0 < amount → 500 ≤ ctx.compute_meter →
      translate_slice_u8 m rptr 32 = .ok rb →
      ap.transfer acct ctx.contract_hash rb amount = .ok acct1 →
      (tosTransfer ap acct ctx m rptr amount).res = .ok 0 ∧
      (tosTransfer ap acct ctx m rptr amount).acct = acct1) := by
  have hcc_ok : 500 ≤ ctx.compute_meter →
      ctx.consume_checked 500 =
        (.ok (), { ctx with compute_meter := ctx.compute_meter - 500 }) := by
    intro h
    unfold InvokeContext.consume_checked
    rw [if_neg (not_lt.mpr h)]
  refine ⟨?_, ?_, ?_⟩
  · intro h0 h500
    unfold tosTransfer
    rw [hcc_ok h500]
    simp only [h0, if_pos rfl]
    refine ⟨rfl, by simp; omega, rfl, rfl, rfl⟩
  · intro h0 hlt
    unfold tosTransfer
    unfold InvokeContext.consume_checked
    rw [if_pos hlt]
    exact ⟨rfl, rfl, rfl⟩
  · intro rb acct1 hpos h500 htr hport
    unfold tosTransfer
    rw [hcc_ok h500]
    simp only [Nat.pos_iff_ne_zero.mp hpos, if_neg (Nat.pos_iff_ne_zero.mp hpos)]
    rw [htr]
    unfold ctx_transfer
    simp only []
    rw [hport]
    exact ⟨rfl, rfl⟩

/-- Witness for the amended C3: a concrete positive transfer (amount 7)
through a counting account port on a mapping holding 32 recipient bytes
succeeds and hands the port the contract hash as source. -/
theorem tosTransfer_spec_witness :
    (tosTransfer ⟨fun _ _ => .ok 0, fun s _ _ _ => .ok (s + 1)⟩ 0
        (InvokeContext.new 1000 (List.replicate 32 1))
        [⟨0, List.replicate 32 9, true⟩] 0 7).res = .ok 0 ∧
    (tosTransfer ⟨fun _ _ => .ok 0, fun s _ _ _ => .ok (s + 1)⟩ 0
        (InvokeContext.new 1000 (List.replicate 32 1))
        [⟨0, List.replicate 32 9, true⟩] 0 7).acct = 1 :=
  (tosTransfer_spec Nat ⟨fun _ _ => .ok 0, fun s _ _ _ => .ok (s + 1)⟩ 0
      (InvokeContext.new 1000 (List.replicate 32 1))
      [⟨0, List.replicate 32 9, true⟩] 0 7).2.2
    (List.replicate 32 9) 1 (by decide) (by decide) rfl rfl

/-- Helper: the slice translator only ever fails with `InvalidLength` or a
mapping fault, never any syscall-level error. -/
theorem translate_slice_inner_error_cases (m : MemoryMapping)
    (acc : AccessType) (a l es : Nat) (e : VmError)
    (h : translate_slice_inner m acc a l es = .error e) :
    e = .InvalidLength ∨ e = .MapFault := by
  unfold translate_slice_inner at h
  split at h
  · exact absurd h (by simp)
  · split at h
    · injection h with h1
      exact Or.inl h1.symm
    · split at h
      · injection h with h1
        exact Or.inr h1.symm
      · exact absurd h (by simp)

/-- Helper: a failing `consume_checked` always reports
`ExceededMaxInstructions` and leaves the context unchanged. -/
theorem consume_checked_error_cases (ctx : InvokeContext) (c : Nat)
    (e : VmError) (ctx1 : InvokeContext)
    (h : ctx.consume_checked c = (.error e, ctx1)) :
    e = .ExceededMaxInstructions ∧ ctx1 = ctx := by
  unfold InvokeContext.consume_checked at h
  split at h
  · simp only [Prod.mk.injEq] at h
    obtain ⟨h1, h2⟩ := h
    injection h1 with h1
    exact ⟨h1.symm, h2.symm⟩
  · simp at h

/-- COUNTEREXAMPLE to C6.  With stored return data `([5; 32], [1])` and an
output buffer of length 0 (`output_len = 0`, so `min(output_len, 1) = 0`),
the handler returns the actual length 1 but writes nothing at all: in
particular the 32-byte program id is NOT copied into the valid, writable
id buffer at guest address 0, which still holds zeroes afterwards —
refuting "copies min(output_len, actual_len) payload bytes plus the
32-byte program id into guest memory". -/
theorem tosGetReturnData_zero_copy_cx :
    (tosGetReturnData
        { InvokeContext.new 100 (List.replicate 32 1) with
            return_data := some (List.replicate 32 5, [1]) }
        [⟨0, List.replicate 32 0, true⟩] 500 0 0).res = .ok 1 ∧
    (tosGetReturnData
        { InvokeContext.new 100 (List.replicate 32 1) with
            return_data := some (List.replicate 32 5, [1]) }
        [⟨0, List.replicate 32 0, true⟩] 500 0 0).mem =
      [⟨0, List.replicate 32 0, true⟩] ∧
    (List.replicate 32 0 : List Nat) ≠ List.replicate 32 5 := by
  refine ⟨rfl, rfl, by decide⟩

/-- CLAIM C6 as amended.  `tos_get_return_data` never fails with
`BufferTooSmall`; with no stored return data it returns 0 without touching
guest memory; with stored data `(pid, data)` it returns the actual stored
length `data.length` regardless of `output_len`: when
`min(output_len, actual_len) = 0` it writes nothing (neither payload nor
program id), and when the minimum is nonzero it writes the truncated
payload `data.take (min output_len actual_len)` followed by the 32-byte
program id (silent truncation, not an error). -/
theorem tosGetReturnData_spec (ctx : InvokeContext) (m : MemoryMapping)
    (dp dl pp : Nat) :
    ((tosGetReturnData ctx m dp dl pp).res ≠ .error .BufferTooSmall) ∧
    (ctx.return_data = none → 50 ≤ ctx.compute_meter →
      (tosGetReturnData ctx m dp dl pp).res = .ok 0 ∧
      (tosGetReturnData ctx m dp dl pp).mem = m) ∧
    (∀ pid data, ctx.return_data = some (pid, data) →
      50 ≤ ctx.compute_meter → min dl data.length = 0 →
      (tosGetReturnData ctx m dp dl pp).res = .ok data.length ∧
      (tosGetReturnData ctx m dp dl pp).mem = m) ∧
    (∀ pid data r1 r2, ctx.return_data = some (pid, data) →
      50 ≤ ctx.compute_meter → min dl data.length ≠ 0 →
      translate_slice_inner m .store dp (min dl data.length) 1 = .ok r1 →
      translate_slice_inner m .store pp 32 1 = .ok r2 →
      (tosGetReturnData ctx m dp dl pp).res = .ok data.length ∧
      (tosGetReturnData ctx m dp dl pp).mem =
        applyWrite (applyWrite m r1 (data.take (min dl data.length)))
          r2 pid) := by
  have hcc : 50 ≤ ctx.compute_meter →
      ctx.consume_checked 50 =
        (.ok (), { ctx with compute_meter := ctx.compute_meter - 50 }) := by
    intro h
    unfold InvokeContext.consume_checked
    rw [if_neg (not_lt.mpr h)]
  refine ⟨?_, ?_, ?_, ?_⟩
  · unfold tosGetReturnData
    split
    · rename_i e ctx1 heq
      obtain ⟨he, _⟩ := consume_checked_error_cases ctx 50 e ctx1 heq
      subst he
      simp
    · split
      · split
        · split
          · rename_i e heq
            rcases translate_slice_inner_error_cases _ _ _ _ _ _ heq with
              h1 | h1 <;> (subst h1; simp)
          · split
            · rename_i e heq
              rcases translate_slice_inner_error_cases _ _ _ _ _ _ heq with
                h1 | h1 <;> (subst h1; simp)
            · simp
        · simp
      · simp
  · intro hnone h50
    unfold tosGetReturnData
    rw [hcc h50]
    simp only [InvokeContext.get_return_data, hnone]
    constructor <;> trivial
  · intro pid data hsome h50 hmin
    unfold tosGetReturnData
    rw [hcc h50]
    simp only [InvokeContext.get_return_data, hsome, hmin]
    simp
  · intro pid data r1 r2 hsome h50 hmin ht1 ht2
    unfold tosGetReturnData
    rw [hcc h50]
    simp only [InvokeContext.get_return_data, hsome]
    rw [if_pos hmin, ht1, ht2]
    constructor <;> trivial

/-- Witness for the amended C6: with stored data `[1,2,3]`, an output
buffer of length 2 at address 0 and the id buffer at address 8 inside one
writable 40-byte region, the handler reports the actual length 3. -/
theorem tosGetReturnData_spec_witness :
    (tosGetReturnData
        { InvokeContext.new 100 (List.replicate 32 1) with
            return_data := some (List.replicate 32 5, [1, 2, 3]) }
        [⟨0, List.replicate 40 0, true⟩] 0 2 8).res = .ok 3 :=
  ((tosGetReturnData_spec
      { InvokeContext.new 100 (List.replicate 32 1) with
          return_data := some (List.replicate 32 5, [1, 2, 3]) }
      [⟨0, List.replicate 40 0, true⟩] 0 2 8).2.2.2
    (List.replicate 32 5) [1, 2, 3]
    (.at_ 0 0 ⟨0, List.replicate 40 0, true⟩)
    (.at_ 0 8 ⟨0, List.replicate 40 0, true⟩)
    rfl (by decide) (by decide) rfl rfl).1

/-- Helper: reading back the key just written. -/
theorem storeLookup_cons_self (p : List Nat × List Nat) (v : List Nat)
    (s : MapStore) : storeLookup ((p, v) :: s) p = some v := by
  simp [storeLookup]

/-- Helper: overwriting inside the bounds preserves the length. -/
theorem listOverwrite_length (l : List Nat) (off : Nat) (data : List Nat)
    (h : off + data.length ≤ l.length) :
    (listOverwrite l off data).length = l.length := by
  unfold listOverwrite
  rw [List.length_append, List.length_append, List.length_take,
    List.length_drop]
  omega

/-- Helper: reading back exactly the overwritten range returns the data. -/
theorem listOverwrite_read (l : List Nat) (off : Nat) (data : List Nat)
    (h : off + data.length ≤ l.length) :
    ((listOverwrite l off data).drop off).take data.length = data := by
  unfold listOverwrite
  have h1 : (l.take off).length = off := by
    rw [List.length_take]
    omega
  rw [List.drop_append_eq_append_drop, List.drop_append_eq_append_drop, h1,
    Nat.sub_self, List.drop_zero, List.length_append, h1]
  have h2 : (l.take off).drop off = [] := by
    apply List.drop_eq_nil_of_le
    omega
  have h3 : off - (off + data.length) = 0 := by omega
  rw [h2, List.nil_append, h3, List.drop_zero,
    List.take_append_eq_append_take, List.take_length, Nat.sub_self,
    List.take_zero, List.append_nil]

/-- Helper: a region matching a Store request also matches the Load
request for the same range. -/
theorem regionMatches_store_load (r : MemoryRegion) (a l : Nat)
    (h : regionMatches r .store a l = true) :
    regionMatches r .load a l = true := by
  unfold regionMatches at h ⊢
  simp only [Bool.and_eq_true] at h
  simp only [Bool.and_eq_true]
  exact ⟨h.1, trivial⟩

/-- Helper: the range bounds encoded in a successful region match. -/
theorem regionMatches_bounds (r : MemoryRegion) (acc : AccessType)
    (a l : Nat) (h : regionMatches r acc a l = true) :
    r.vmAddr ≤ a ∧ a + l ≤ r.vmAddr + r.bytes.length := by
  unfold regionMatches at h
  simp only [Bool.and_eq_true, decide_eq_true_eq] at h
  exact h.1

/-- Helper: what a successful `findRegion` resolution guarantees. -/
theorem findRegion_sound (m : MemoryMapping) (acc : AccessType) (a l : Nat)
    (idx off : Nat) (reg : MemoryRegion)
    (h : findRegion m acc a l = some (idx, off, reg)) :
    regionMatches reg acc a l = true ∧ off = a - reg.vmAddr := by
  induction m generalizing idx with
  | nil => simp [findRegion] at h
  | cons r rs ih =>
    unfold findRegion at h
    by_cases hm : regionMatches r acc a l = true
    · rw [if_pos hm] at h
      simp only [Option.some.injEq, Prod.mk.injEq] at h
      obtain ⟨_, hoff, hreg⟩ := h
      subst hreg
      exact ⟨hm, hoff.symm⟩
    · rw [if_neg hm] at h
      rcases hfr : findRegion rs acc a l with _ | ⟨j, oj, rj⟩
      · rw [hfr] at h
        simp at h
      · rw [hfr] at h
        simp only [Option.map_some', Option.some.injEq, Prod.mk.injEq] at h
        obtain ⟨_, hoff, hreg⟩ := h
        rw [hoff, hreg] at hfr
        exact ih j hfr

/-- Helper: after writing `data` through the region found for a Store
request (when the Load resolution agrees with it), the Load resolution of
the updated mapping finds the same index and offset, with the overwritten
bytes. -/
theorem findRegion_update (m : MemoryMapping) (a l : Nat) (data : List Nat)
    (idx off : Nat) (reg : MemoryRegion)
    (hs : findRegion m .store a l = some (idx, off, reg))
    (hl : findRegion m .load a l = some (idx, off, reg))
    (hd : data.length = l) :
    findRegion (updateRegion m idx off data) .load a l =
      some (idx, off,
        { reg with bytes := listOverwrite reg.bytes off data }) := by
  induction m generalizing idx with
  | nil => simp [findRegion] at hs
  | cons r rs ih =>
    by_cases hm : regionMatches r .store a l = true
    · unfold findRegion at hs
      rw [if_pos hm] at hs
      simp only [Option.some.injEq, Prod.mk.injEq] at hs
      obtain ⟨hidx, hoff, hreg⟩ := hs
      subst hreg
      subst hidx
      obtain ⟨hb1, hb2⟩ := regionMatches_bounds r .store a l hm
      have hbound : off + data.length ≤ r.bytes.length := by omega
      have hlen :
          (listOverwrite r.bytes off data).length = r.bytes.length :=
        listOverwrite_length r.bytes off data hbound
      have hml :
          regionMatches { r with bytes := listOverwrite r.bytes off data }
            .load a l = true := by
        unfold regionMatches
        simp only [Bool.and_eq_true, decide_eq_true_eq]
        refine ⟨⟨hb1, ?_⟩, trivial⟩
        simp only [hlen]
        omega
      unfold updateRegion findRegion
      rw [if_pos hml]
      simp only [Option.some.injEq, Prod.mk.injEq]
      exact ⟨trivial, hoff, trivial⟩
    · unfold findRegion at hs
      rw [if_neg hm] at hs
      rcases hfr : findRegion rs .store a l with _ | ⟨j, oj, rj⟩
      · rw [hfr] at hs
        simp at hs
      · rw [hfr] at hs
        simp only [Option.map_some', Option.some.injEq, Prod.mk.injEq] at hs
        obtain ⟨hidx, hoff, hreg⟩ := hs
        rw [hoff, hreg] at hfr
        unfold findRegion at hl
        by_cases hml : regionMatches r .load a l = true
        · rw [if_pos hml] at hl
          simp only [Option.some.injEq, Prod.mk.injEq] at hl
          obtain ⟨h0, _⟩ := hl
          omega
        · rw [if_neg hml] at hl
          rcases hfl : findRegion rs .load a l with _ | ⟨j2, o2, r2⟩
          · rw [hfl] at hl
            simp at hl
          · rw [hfl] at hl
            simp only [Option.map_some', Option.some.injEq,
              Prod.mk.injEq] at hl
            obtain ⟨hj2, ho2, hr2⟩ := hl
            have hjj : j2 = j := by omega
            rw [hjj, ho2, hr2] at hfl
            have hrec := ih j hfr hfl
            rw [← hidx]
            unfold updateRegion findRegion
            rw [if_neg hml, hrec]
            simp

/-- Helper: a byte-slice read through a successful Load resolution. -/
theorem translate_u8_of_find (m : MemoryMapping) (a l : Nat)
    (idx off : Nat) (reg : MemoryRegion) (hl0 : l ≠ 0) (hiz : l ≤ ISIZE_MAX)
    (h : findRegion m .load a l = some (idx, off, reg)) :
    translate_slice_u8 m a l = .ok ((reg.bytes.drop off).take l) := by
  have hsat : satMul64 l 1 = l := by
    unfold satMul64 U64_MAX
    unfold ISIZE_MAX at hiz
    omega
  have hguard : ¬ ISIZE_MAX < satMul64 l 1 := by
    rw [hsat]
    omega
  unfold translate_slice_u8 translate_slice_inner
  rw [if_neg hl0, if_neg hguard, hsat, h]

/-- Helper: writing through the Store resolution and reading the same
range back through Load returns exactly the written bytes. -/
theorem write_read_back (m : MemoryMapping) (a l : Nat) (data : List Nat)
    (idx off : Nat) (reg : MemoryRegion)
    (hs : findRegion m .store a l = some (idx, off, reg))
    (hl : findRegion m .load a l = some (idx, off, reg))
    (hd : data.length = l) (hl0 : l ≠ 0) (hiz : l ≤ ISIZE_MAX) :
    translate_slice_u8 (updateRegion m idx off data) a l = .ok data := by
  have hfind := findRegion_update m a l data idx off reg hs hl hd
  rw [translate_u8_of_find _ a l idx off _ hl0 hiz hfind]
  obtain ⟨hmatch, hoff⟩ := findRegion_sound m .store a l idx off reg hs
  obtain ⟨hb1, hb2⟩ := regionMatches_bounds reg .store a l hmatch
  have hbound : off + data.length ≤ reg.bytes.length := by omega
  rw [show ({ reg with bytes := listOverwrite reg.bytes off data } :
      MemoryRegion).bytes = listOverwrite reg.bytes off data from rfl]
  rw [← hd, listOverwrite_read reg.bytes off data hbound]

/-- CLAIM C5.  Through the map-backed storage port keyed by
`(contract_hash, key)`, with sufficient budget, valid guest buffers,
`key_len ≤ 256` and `value_len ≤ 65536`: a write followed by a read of the
same key succeeds, fills the output buffer (of size ≥ `value_len`) with
exactly the written value — shown by reading the buffer back — and the
read returns `value_len`, the write and read together costing
`(500 + 2·value_len) + (200 + value_len)`; and a read of an absent key
succeeds with 0, consuming exactly the 200-unit base cost and leaving
guest memory untouched. -/
theorem storage_write_read_spec (stor : MapStore) (ctx : InvokeContext)
    (m : MemoryMapping) (kp kl vp vl op ol : Nat) (key value : List Nat)
    (idx off : Nat) (reg : MemoryRegion) (hkl : kl ≤ 256)
    (hkey : translate_slice_u8 m kp kl = .ok key) :
    (vl ≤ 65536 → translate_slice_u8 m vp vl = .ok value →
      value.length = vl → 700 + 3 * vl ≤ ctx.compute_meter → vl ≤ ol →
      findRegion m .store op vl = some (idx, off, reg) →
      findRegion m .load op vl = some (idx, off, reg) →
      (tosStorageWrite mapStorage stor ctx m kp kl vp vl).res = .ok 0 ∧
      (storageWriteThenRead stor ctx m kp kl vp vl op ol).res = .ok vl ∧
      translate_slice_u8
        (storageWriteThenRead stor ctx m kp kl vp vl op ol).mem op vl =
        .ok value ∧
      (storageWriteThenRead stor ctx m kp kl vp vl op ol).ctx.compute_meter
        + (700 + 3 * vl) = ctx.compute_meter) ∧
    (storeLookup stor (ctx.contract_hash, key) = none →
      200 ≤ ctx.compute_meter →
      (tosStorageRead mapStorage stor ctx m kp kl op ol).res = .ok 0 ∧
      (tosStorageRead mapStorage stor ctx m kp kl op ol).ctx.compute_meter
        + 200 = ctx.compute_meter ∧
      (tosStorageRead mapStorage stor ctx m kp kl op ol).mem = m) := by
  constructor
  · intro hvl hval hvlen hbud hout hsfind hlfind
    have hcw : satAdd64 500 (satMul64 vl 2) = 500 + 2 * vl := by
      unfold satAdd64 satMul64 U64_MAX
      omega
    have hccw : ctx.consume_checked (satAdd64 500 (satMul64 vl 2)) =
        (.ok (), { ctx with
          compute_meter := ctx.compute_meter - (500 + 2 * vl) }) := by
      rw [hcw]
      unfold InvokeContext.consume_checked
      rw [if_neg (not_lt.mpr (by omega))]
    have hW : tosStorageWrite mapStorage stor ctx m kp kl vp vl =
        ⟨.ok 0,
          { ctx with compute_meter := ctx.compute_meter - (500 + 2 * vl) },
          m, ((ctx.contract_hash, key), value) :: stor, (),
          .charge (satAdd64 500 (satMul64 vl 2)) ::
            (tev kl ++ tev vl ++ [.portCall])⟩ := by
      unfold tosStorageWrite
      rw [if_neg (not_lt.mpr hkl), if_neg (not_lt.mpr hvl)]
      simp only [hccw, hkey, hval, ctx_set_storage, mapStorage]
    have hcr : satAdd64 200 (satMul64 vl 1) = 200 + vl := by
      unfold satAdd64 satMul64 U64_MAX
      omega
    have hccr : ({ ctx with
        compute_meter := ctx.compute_meter - (500 + 2 * vl)} :
          InvokeContext).consume_checked (satAdd64 200 (satMul64 vl 1)) =
        (.ok (), { ctx with
          compute_meter :=
            ctx.compute_meter - (500 + 2 * vl) - (200 + vl) }) := by
      rw [hcr]
      unfold InvokeContext.consume_checked
      rw [if_neg (not_lt.mpr (by simp; omega))]
    have hnlt : ¬ ol < vl := by omega
    rcases Nat.eq_zero_or_pos vl with hv0 | hvpos
    · have hvnil : value = [] := List.length_eq_zero.mp (by omega)
      have hinner : translate_slice_inner m .store op vl 1 =
          .ok .empty := by
        unfold translate_slice_inner
        rw [if_pos hv0]
      have hR : storageWriteThenRead stor ctx m kp kl vp vl op ol =
          ⟨.ok vl,
            { ctx with compute_meter :=
                ctx.compute_meter - (500 + 2 * vl) - (200 + vl) },
            m, ((ctx.contract_hash, key), value) :: stor, (),
            tev kl ++
              [.portCall, .charge (satAdd64 200 (satMul64 vl 1))]
              ++ tev vl⟩ := by
        unfold storageWriteThenRead
        rw [hW]
        dsimp only
        unfold tosStorageRead
        rw [if_neg (not_lt.mpr hkl)]
        simp only [hkey, ctx_get_storage, mapStorage,
          storeLookup_cons_self, hvlen, hccr, if_neg hnlt, hinner,
          applyWrite]
      refine ⟨by rw [hW], by rw [hR], ?_, by rw [hR]; simp; omega⟩
      rw [hR]
      subst hvnil
      simp only [List.length_nil] at hv0 ⊢
      rw [hv0]
      rfl
    · have hiz : vl ≤ ISIZE_MAX := by
        unfold ISIZE_MAX
        omega
      have hinner : translate_slice_inner m .store op vl 1 =
          .ok (.at_ idx off reg) := by
        have hsat : satMul64 vl 1 = vl := by
          unfold satMul64 U64_MAX
          omega
        have hguard : ¬ ISIZE_MAX < satMul64 vl 1 := by
          rw [hsat]
          unfold ISIZE_MAX
          omega
        unfold translate_slice_inner
        rw [if_neg (by omega : ¬ vl = 0), if_neg hguard, hsat, hsfind]
      have hR : storageWriteThenRead stor ctx m kp kl vp vl op ol =
          ⟨.ok vl,
            { ctx with compute_meter :=
                ctx.compute_meter - (500 + 2 * vl) - (200 + vl) },
            updateRegion m idx off value,
            ((ctx.contract_hash, key), value) :: stor, (),
            tev kl ++
              [.portCall, .charge (satAdd64 200 (satMul64 vl 1))]
              ++ tev vl⟩ := by
        unfold storageWriteThenRead
        rw [hW]
        dsimp only
        unfold tosStorageRead
        rw [if_neg (not_lt.mpr hkl)]
        simp only [hkey, ctx_get_storage, mapStorage,
          storeLookup_cons_self, hvlen, hccr, if_neg hnlt, hinner,
          applyWrite]
      refine ⟨by rw [hW], by rw [hR], ?_, by rw [hR]; simp; omega⟩
      rw [hR]
      exact write_read_back m op vl value idx off reg hsfind hlfind hvlen
        (by omega) hiz
  · intro hnone h200
    have hcc2 : ctx.consume_checked 200 =
        (.ok (), { ctx with
          compute_meter := ctx.compute_meter - 200 }) := by
      unfold InvokeContext.consume_checked
      rw [if_neg (not_lt.mpr h200)]
    have hR0 : tosStorageRead mapStorage stor ctx m kp kl op ol =
        ⟨.ok 0, { ctx with compute_meter := ctx.compute_meter - 200 },
          m, stor, (), tev kl ++ [.portCall, .charge 200]⟩ := by
      unfold tosStorageRead
      rw [if_neg (not_lt.mpr hkl)]
      simp only [hkey, ctx_get_storage, mapStorage, hnone, hcc2]
    refine ⟨by rw [hR0], by rw [hR0]; simp; omega, by rw [hR0]⟩

/-- Witness for C5: writing `[1,2,3]` under the one-byte key `[107]` and
reading it back through a 3-byte output buffer returns 3 and the buffer
holds exactly `[1,2,3]`. -/
theorem storage_write_read_spec_witness :
    (storageWriteThenRead [] c5Ctx c5Mem 0 1 8 3 16 3).res = .ok 3 ∧
    translate_slice_u8 (storageWriteThenRead [] c5Ctx c5Mem 0 1 8 3 16 3).mem
      16 3 = .ok [1, 2, 3] := by
  have h := (storage_write_read_spec [] c5Ctx c5Mem 0 1 8 3 16 3 [107]
      [1, 2, 3] 0 16 ⟨0, c5Bytes, true⟩ (by decide) rfl).1
    (by decide) rfl rfl (by decide) (by decide) rfl rfl
  exact ⟨h.2.1, h.2.2.1⟩

/-- Witness for C7 at a concrete context: storing exactly 1024 bytes
replaces the slot. -/
theorem set_return_data_boundary_witness :
    (InvokeContext.new 0 (List.replicate 32 1)).set_return_data
        (List.replicate 32 2) (List.replicate 1024 7) =
      (.ok (), { InvokeContext.new 0 (List.replicate 32 1) with
          return_data :=
            some (List.replicate 32 2, List.replicate 1024 7) }) :=
  (set_return_data_boundary (InvokeContext.new 0 (List.replicate 32 1))
      (List.replicate 32 2) (List.replicate 1024 7)).1
    (by rw [List.length_replicate])
